import Mathlib

/-!
Verification of the field/group resolution engine of the insurance data
dictionary (src/data-models/data-mappings.ts).

The four resolution helpers are shallowly embedded here:
  - getFieldConfigForDataField (Template Resolver)
  - getFieldOptions together with getNestedValue (State Option Resolver)
  - createDynamicGroups (Dynamic Group Materializer)
  - buildGroupHierarchy (Group Hierarchy Builder)

Strings are modelled as lists of characters ("Str").  JavaScript string
operations used by the source (String.prototype.replace with a string
pattern, String.prototype.match, RegExp.test for the specific regexes the
source constructs, split('.'), toUpperCase) are embedded as executable
functions on "Str" below; each definition carries a comment naming the
source expression it embeds.  The registries, which the source holds as
module-level object literals, are passed explicitly as association lists
in object-insertion order, matching the iteration order of
Object.entries / Object.values for the non-integer-like keys the
registries use.
-/

namespace InsuranceData

/-- Character-list strings; JS strings of the key/id alphabet used by the
registries (letters, digits, dot, underscore, brackets, star). -/
abbrev Str := List Char

/-- Numeric value of a list of decimal digit characters, most significant
first; embeds parseInt on an all-digit string. -/
def digitsVal (ds : Str) : Nat :=
  ds.foldl (fun a c => a * 10 + (c.toNat - '0'.toNat)) 0

/-- Splits a maximal (possibly empty) run of leading decimal digits from a
string, returning (digits, remainder). -/
def collectDigits : Str → Str × Str
  | [] => ([], [])
  | c :: r =>
    if c.isDigit then
      let p := collectDigits r
      (c :: p.1, p.2)
    else ([], c :: r)

theorem collectDigits_snd_length (s : Str) : (collectDigits s).2.length ≤ s.length := by
  induction s with
  | nil => simp [collectDigits]
  | cons c r ih =>
    simp only [collectDigits]
    by_cases h : c.isDigit
    · simp only [h, if_pos]
      exact Nat.le_succ_of_le ih
    · simp [h]

/-- Tokens of the matcher the source builds from a template key: the
source rewrites every bracket group "[*]" or "[digits]" of the template
key into the regex fragment "\[\d+\]" (an "idx" token below) and keeps
every other character as a literal. -/
inductive Tok where
  | lit (c : Char)
  | idx
  deriving DecidableEq

/-- Tokenization of a template key, embedding the left-to-right global
rewrite templateKey.replace(bracket-group-regex, "\[\d+\]") of the
source: at each position, "[*]" or "[" digits+ "]" becomes an idx token,
any other character is kept literally and scanning resumes after it. -/
def tokenize : Str → List Tok
  | [] => []
  | '[' :: '*' :: ']' :: r => .idx :: tokenize r
  | '[' :: r =>
    match h : collectDigits r with
    | (_ :: _, ']' :: rest) => .idx :: tokenize rest
    | _ => .lit '[' :: tokenize r
  | c :: r => .lit c :: tokenize r
termination_by s => s.length
decreasing_by
  all_goals simp_wf
  all_goals first
    | omega
    | (have hle := collectDigits_snd_length r; rw [h] at hle; simp at hle; omega)

/-- Consumes a leading "[" digits+ "]" from a string, returning the rest;
this is the deterministic reading of the regex fragment "\[\d+\]" (the
digit run is maximal and must be followed by "]", which is not a digit,
so no backtracking can arise). -/
def eatIdx : Str → Option Str
  | [] => none
  | c :: r =>
    if c = '[' then
      match collectDigits r with
      | (_ :: _, ']' :: rest) => some rest
      | _ => none
    else none

/-- JavaScript line terminator characters, which the regex metacharacter
"." does not match. -/
def isLineTerm (c : Char) : Bool :=
  c = '\n' || c = '\r' || c = (Char.ofNat 0x2028) || c = (Char.ofNat 0x2029)

/-- Anchored matching of the tokenized template pattern against a data
field key, embedding new RegExp("^" + pattern + "$").test(dataFieldKey)
for the patterns the source builds: a literal "." of the template key is
the regex wildcard (any character except a line terminator), any other
literal character matches itself, and an idx token matches "[" digits+
"]".  (Template keys in the registry contain no other regex
metacharacters, so this covers every pattern the source constructs.) -/
def rmatch : List Tok → Str → Bool
  | [], s => s.isEmpty
  | .lit c :: ts, s =>
    match s with
    | [] => false
    | d :: ds => (if c = '.' then !isLineTerm d else c = d) && rmatch ts ds
  | .idx :: ts, s =>
    match eatIdx s with
    | some r => rmatch ts r
    | none => false

/-- Substring test, embedding templateKey.includes("[*]") and similar JS
String.prototype.includes calls. -/
def containsSub : Str → Str → Bool
  | [], pat => pat.isEmpty
  | c :: r, pat => pat.isPrefixOf (c :: r) || containsSub r pat

/-- Index of the first occurrence of pat in s, if any (the occurrence JS
String.prototype.replace with a string pattern rewrites). -/
def firstIdxOf : Str → Str → Option Nat
  | [], pat => if pat.isEmpty then some 0 else none
  | c :: r, pat =>
    if pat.isPrefixOf (c :: r) then some 0
    else (firstIdxOf r pat).map (· + 1)

/-- Replacement of the first occurrence of pat in s by rep, embedding the
JS call s.replace(pat, rep) with a plain string pattern (the replacement
strings the source uses contain no "$" escapes). -/
def replaceFirst : Str → Str → Str → Str
  | [], pat, rep => if pat.isEmpty then rep else []
  | c :: r, pat, rep =>
    if pat.isPrefixOf (c :: r) then rep ++ (c :: r).drop pat.length
    else c :: replaceFirst r pat rep

/-- First bracketed decimal integer occurring in a data field key,
embedding dataFieldKey.match(first-bracket-group-regex): the leftmost
occurrence of "[" digits+ "]" yields parseInt of its digits. -/
def firstBracketNum : Str → Option Nat
  | [] => none
  | '[' :: r =>
    match collectDigits r with
    | (d :: ds, ']' :: _) => some (digitsVal (d :: ds))
    | _ => firstBracketNum r
  | _ :: r => firstBracketNum r

/-- Dropdown option records ("DropdownOption" in the source). -/
structure DropdownOption where
  value : Str
  label : Str
  disabled : Bool := false
  deriving DecidableEq

/-- State-specific dropdown configuration ("StateSpecificOptions" in the
source): an index signature from region-code keys to option lists plus
the mandatory default list.  The non-default keys are kept as an
association list in object order; the source's data model uses 2-letter
region codes as the non-default keys. -/
structure StateSpecificOptions where
  byState : List (Str × List DropdownOption)
  default : List DropdownOption
  deriving DecidableEq

/-- Input component kinds ("FieldInputType" in the source). -/
inductive FieldInputType where
  | text | number | currency | percentage | phone | email | date
  | dropdown | multiselect | textarea | radio | checkbox | zip | ssn
  | license | vin | address | material_percentage | claims_array
  deriving DecidableEq

/-- Top-level sections ("section" values in the source). -/
inductive SectionTag where
  | applicant | home | auto
  deriving DecidableEq

/-- Field definition records ("FieldConfiguration" in the source).  The
fields the resolution helpers read or rewrite are carried here; the
remaining purely presentational fields (placeholder, casing hints,
prefix/suffix, validations, conditional, formatter references) are
copied verbatim by the object spread in the Template Resolver exactly
like label and description are, and play no role in any helper, so they
are not repeated in the record. -/
structure FieldConfiguration where
  key : Str
  label : Str
  description : Option Str := none
  inputType : FieldInputType
  options : Option (List DropdownOption) := none
  stateSpecificOptions : Option StateSpecificOptions := none
  dependsOnStateFrom : Option Str := none
  required : Bool := false
  group : Option Str := none
  order : Rat
  fieldSection : SectionTag
  deriving DecidableEq

/-- Group definition records ("FieldGroup" in the source).  Optional
booleans of the source (undefined or boolean) are Bool with default
false, since only their truthiness is ever read. -/
structure FieldGroup where
  id : Str
  name : Str
  order : Rat
  description : Option Str := none
  defaultOpen : Bool := false
  parentGroup : Option Str := none
  isTemplate : Bool := false
  templatePattern : Option Str := none
  dynamicNamePattern : Option Str := none
  deriving DecidableEq

/-- Nested data documents (the audit record the resolvers read).  The
undefined value is represented as Option.none at every access site, not
as a JSValue constructor. -/
inductive JSValue where
  | vnull
  | vbool (b : Bool)
  | vnum (q : Rat)
  | vstr (s : Str)
  | varr (elems : List JSValue)
  | vobj (fields : List (Str × JSValue))

/-- JS truthiness of a defined value (NaN, absent from the data model
here, is the one falsy number not covered by the zero test). -/
def jsTruthy : JSValue → Bool
  | .vnull => false
  | .vbool b => b
  | .vnum q => q ≠ 0
  | .vstr s => !s.isEmpty
  | .varr _ => true
  | .vobj _ => true

/-- Truthiness of an optional string property ('' and undefined are
falsy). -/
def strTruthy : Option Str → Bool
  | none => false
  | some s => !s.isEmpty

/-- First-match lookup in an association list, embedding property lookup
in a plain object literal (keys are unique in the registries, and the
prototype chain is not modelled: registry keys are ordinary data keys). -/
def lookupAL {α : Type} : List (Str × α) → Str → Option α
  | [], _ => none
  | (k', v) :: t, k => if k' = k then some v else lookupAL t k

/-- Canonical decimal array index: JS arrays expose an own property only
for the canonical decimal form of an index. -/
def decimalIndex (s : Str) : Option Nat :=
  if s ≠ [] ∧ s.all Char.isDigit ∧ (s.head? = some '0' → s = ['0']) then
    some (digitsVal s)
  else none

/-- Property access current[key] on a defined value: object fields by
key, array elements by canonical decimal index.  Property reads on
primitives (boxed wrappers) and prototype-inherited properties are not
modelled; the resolver paths address plain objects. -/
def getProp : JSValue → Str → Option JSValue
  | .vobj fields, k => lookupAL fields k
  | .varr elems, k =>
    match decimalIndex k with
    | some n => elems.get? n
    | none => none
  | _, _ => none

/-- Split on the dot character, embedding path.split("."). -/
def splitDot : Str → List Str
  | [] => [[]]
  | c :: r =>
    let res := splitDot r
    if c = '.' then [] :: res
    else
      match res with
      | h :: t => (c :: h) :: t
      | [] => [[c]]

/-- Embeds getNestedValue of the source: a reduce over the dot-separated
path segments in which a falsy current value, or a key the current value
does not carry, yields undefined. -/
def getNestedValue (obj : Option JSValue) (path : Str) : Option JSValue :=
  (splitDot path).foldl
    (fun cur key =>
      match cur with
      | some v => if jsTruthy v then getProp v key else none
      | none => none)
    obj

/-- Uppercasing of a region code, embedding toUpperCase on the ASCII
codes the data uses. -/
def upper (s : Str) : Str := s.map Char.toUpper

/-- Embeds getFieldOptions of the source.  A thrown TypeError is the
error result: the source computes stateFieldValue?.toUpperCase(), which
throws when the value at the state path is defined, non-null and not a
string.  The other branches mirror the source's truthiness tests: a
present options array (even empty) is returned as is; the state branch
runs only when stateSpecificOptions is present and dependsOnStateFrom is
a non-empty string; a falsy (undefined, null via optional chaining, or
empty) state code, or a code that is not a key of the map, falls back to
the default list. -/
def getFieldOptions (fieldConfig : FieldConfiguration) (auditData : Option JSValue) :
    Except Unit (List DropdownOption) :=
  match fieldConfig.options with
  | some opts => .ok opts
  | none =>
    match fieldConfig.stateSpecificOptions, fieldConfig.dependsOnStateFrom with
    | some sso, some path =>
      if path.isEmpty then .ok []
      else
        match getNestedValue auditData path with
        | none => .ok sso.default
        | some .vnull => .ok sso.default
        | some (.vstr s) =>
          let stateCode := upper s
          match (if stateCode.isEmpty then none else lookupAL sso.byState stateCode) with
          | some opts => .ok opts
          | none => .ok sso.default
        | some _ => .error ()
    | _, _ => .ok []

/-- The index rewrite the Template Resolver applies to a matched
definition: key becomes the concrete data field key, and the group id
(when present) has the first occurrence of "_template" replaced by an
underscore and the first bracketed integer of the data field key; the
source writes this as config.group?.replace(...) || config.group, and
the fallback through || only ever reproduces an unchanged group, so the
net effect on an absent group is to keep it absent. -/
def rewriteConfig (config : FieldConfiguration) (dataFieldKey : Str) : FieldConfiguration :=
  let index := match firstBracketNum dataFieldKey with
    | some n => n
    | none => 0
  { config with
    key := dataFieldKey
    group := config.group.map
      (fun g => replaceFirst g "_template".data ('_' :: (Nat.repr index).data)) }

/-- Scan of Object.entries of the field registry in insertion order,
returning the rewrite of the first entry whose key contains "[*]" and
whose derived pattern matches the data field key. -/
def templateScan (entries : List (Str × FieldConfiguration)) (dataFieldKey : Str) :
    Option FieldConfiguration :=
  match entries with
  | [] => none
  | (templateKey, config) :: rest =>
    if containsSub templateKey "[*]".data &&
        rmatch (tokenize templateKey) dataFieldKey then
      some (rewriteConfig config dataFieldKey)
    else templateScan rest dataFieldKey

/-- Embeds getFieldConfigForDataField of the source, with the module's
FIELD_CONFIGURATIONS object passed explicitly as an association list in
insertion order: exact lookup first, then the template scan. -/
def getFieldConfigForDataField (registry : List (Str × FieldConfiguration))
    (dataFieldKey : Str) : Option FieldConfiguration :=
  match lookupAL registry dataFieldKey with
  | some config => some config
  | none => templateScan registry dataFieldKey

/-- Embeds the collection read data.outer?.inner || [] of the
materializer.  Reading a property of null (or of an undefined data
argument, not representable here since callers pass the audit document)
throws; an undefined or null intermediate degrades to undefined through
the optional chain; || [] turns any falsy result into the empty array;
and a truthy non-array result throws at the subsequent .forEach call. -/
def getCollection (data : JSValue) (outer inner : Str) : Except Unit (List JSValue) :=
  match data with
  | .vnull => .error ()
  | d =>
    match getProp d outer with
    | none => .ok []
    | some .vnull => .ok []
    | some v =>
      match getProp v inner with
      | none => .ok []
      | some w =>
        if jsTruthy w then
          match w with
          | .varr elems => .ok elems
          | _ => .error ()
        else .ok []

/-- One concrete group per element of a collection, as pushed by the
forEach body of the materializer: only the element index is read. -/
def materializedGroups (idPre namePre descPre : Str) (template : FieldGroup)
    (elems : List JSValue) : List FieldGroup :=
  (List.range elems.length).map fun index =>
    { id := idPre ++ (Nat.repr index).data
      name := namePre ++ (Nat.repr (index + 1)).data
      order := template.order + (index : Rat)
      parentGroup := template.parentGroup
      description := some (descPre ++ (Nat.repr (index + 1)).data) }

/-- Contribution of one template group inside createDynamicGroups: a
non-template or pattern-less (or empty-pattern, which is falsy) group
contributes nothing, and each of the two recognized pattern literals
reads its collection and pushes one group per element.  The two pattern
tests of the source are successive independent if statements on
mutually exclusive string literals, rendered here as a nested match. -/
def dynamicGroupsFor (data : JSValue) (template : FieldGroup) :
    Except Unit (List FieldGroup) :=
  if !template.isTemplate || !strTruthy template.templatePattern then .ok []
  else if template.templatePattern = some "client.household_members[*]".data then
    (getCollection data "client".data "household_members".data).map
      (materializedGroups "household_member_".data "Household Member ".data
        "Information for household member ".data template)
  else if template.templatePattern = some "auto.vehicles[*]".data then
    (getCollection data "auto".data "vehicles".data).map
      (materializedGroups "vehicle_".data "Vehicle ".data
        "Information for vehicle ".data template)
  else .ok []

/-- Embeds createDynamicGroups of the source: the template groups are
visited in order and their contributions are concatenated; a TypeError
raised while visiting one template aborts the whole call. -/
def createDynamicGroups (data : JSValue) (templateGroups : List FieldGroup) :
    Except Unit (List FieldGroup) :=
  match templateGroups with
  | [] => .ok []
  | t :: ts => do
    let gs ← dynamicGroupsFor data t
    let rest ← createDynamicGroups data ts
    .ok (gs ++ rest)

/-- Replace the value stored at the first occurrence of a key, or append
the binding, embedding hierarchy[key] = value on an object used as a
dictionary. -/
def alSet {α : Type} : List (Str × α) → Str → α → List (Str × α)
  | [], k, v => [(k, v)]
  | (k', v') :: t, k, v => if k' = k then (k, v) :: t else (k', v') :: alSet t k v

/-- Append one element to the list stored at a key, if the key is
present, embedding hierarchy[key].push(g). -/
def alPush (h : List (Str × List FieldGroup)) (k : Str) (g : FieldGroup) :
    List (Str × List FieldGroup) :=
  match h with
  | [] => []
  | (k', l) :: t => if k' = k then (k', l ++ [g]) :: t else (k', l) :: alPush t k g

/-- Stable insertion of a group after every already-placed group of less
or equal order. -/
def sinsert (g : FieldGroup) : List FieldGroup → List FieldGroup
  | [] => [g]
  | b :: bs => if b.order ≤ g.order then b :: sinsert g bs else g :: b :: bs

/-- Stable ascending sort by order, embedding the ECMAScript
Array.prototype.sort((a, b) => a.order - b.order) calls of the builder:
the specification requires a stable sort consistent with the comparator,
which this insertion sort realizes. -/
def sortByOrder (l : List FieldGroup) : List FieldGroup :=
  l.foldl (fun acc g => sinsert g acc) []

/-- Result of the Group Hierarchy Builder. -/
structure GroupHierarchy where
  topLevel : List FieldGroup
  hierarchy : List (Str × List FieldGroup)

/-- One step of the builder's first forEach: a group with a falsy
parentGroup is appended to topLevel and its children bucket is
initialized empty. -/
def initStep (p : List FieldGroup × List (Str × List FieldGroup)) (g : FieldGroup) :
    List FieldGroup × List (Str × List FieldGroup) :=
  if !strTruthy g.parentGroup then (p.1 ++ [g], alSet p.2 g.id []) else p

/-- First pass of the builder over the working set. -/
def initPass (allGroups : List FieldGroup) :
    List FieldGroup × List (Str × List FieldGroup) :=
  allGroups.foldl initStep ([], [])

/-- One step of the builder's second forEach: a group with a truthy
parentGroup that has an initialized bucket is appended to that
bucket. -/
def childStep (h : List (Str × List FieldGroup)) (g : FieldGroup) :
    List (Str × List FieldGroup) :=
  match g.parentGroup with
  | some p =>
    if !p.isEmpty && (lookupAL h p).isSome then alPush h p g else h
  | none => h

/-- Second pass of the builder. -/
def childPass (allGroups : List FieldGroup) (h : List (Str × List FieldGroup)) :
    List (Str × List FieldGroup) :=
  allGroups.foldl childStep h

/-- Embeds buildGroupHierarchy of the source, with the flat group record
passed as an association list in insertion order (Object.values of the
source): concatenate the record values with the dynamic groups, collect
top-level groups and initialize their buckets, attach children to
existing buckets, then sort the top level and every bucket by order. -/
def buildGroupHierarchy (flatGroups : List (Str × FieldGroup))
    (dynamicGroups : List FieldGroup) : GroupHierarchy :=
  let allGroups := flatGroups.map Prod.snd ++ dynamicGroups
  let ip := initPass allGroups
  let withChildren := childPass allGroups ip.2
  { topLevel := sortByOrder ip.1
    hierarchy := withChildren.map fun e => (e.1, sortByOrder e.2) }

/-- Characterization predicate for the builder's second pass: g is
attached to the bucket of key k exactly when its parentGroup is the
truthy (non-empty) string k.  Used to state which groups end up in each
children bucket. -/
def childP (k : Str) (g : FieldGroup) : Bool :=
  match g.parentGroup with
  | some p => !p.isEmpty && decide (p = k)
  | none => false

/-! Concrete instances, mirroring entries of the source registries, used
by witnesses and counterexamples. -/

/-- Option lists of the roof_type example of the source's guide. -/
def flRoofOptions : List DropdownOption :=
  [{ value := "tile".data, label := "Tile".data },
   { value := "metal".data, label := "Metal".data }]

def caRoofOptions : List DropdownOption :=
  [{ value := "tile".data, label := "Tile".data },
   { value := "wood_shake".data, label := "Wood Shake".data }]

def defaultRoofOptions : List DropdownOption :=
  [{ value := "comp_shingle".data, label := "Composition Shingle".data }]

def roofSso : StateSpecificOptions :=
  { byState := [("FL".data, flRoofOptions), ("CA".data, caRoofOptions)],
    default := defaultRoofOptions }

/-- The home.construction.roof_type field of the source, which carries
state-specific options keyed off home.property_address.state. -/
def roofTypeConfig : FieldConfiguration :=
  { key := "home.construction.roof_type".data, label := "Roof Type".data,
    inputType := .dropdown, stateSpecificOptions := some roofSso,
    dependsOnStateFrom := some "home.property_address.state".data,
    order := 15, fieldSection := .home }

/-- A data context carrying the given value at
home.property_address.state. -/
def stateContext (v : JSValue) : JSValue :=
  .vobj [("home".data, .vobj [("property_address".data, .vobj [("state".data, v)])])]

/-- The vehicle_template group of the source (auto section). -/
def vehicleTemplate : FieldGroup :=
  { id := "vehicle_template".data, name := "Vehicles".data, order := 3,
    isTemplate := true, templatePattern := some "auto.vehicles[*]".data,
    dynamicNamePattern := some "Vehicle {index + 1}".data }

/-- The additional_interests_template group exactly as declared in the
source's group registry: a template over home.additional_interests[*]. -/
def additionalInterestsTemplate : FieldGroup :=
  { id := "additional_interests_template".data,
    name := "Additional Interest".data, order := (19 : Rat) / 2,
    isTemplate := true,
    templatePattern := some "home.additional_interests[*]".data,
    dynamicNamePattern := some "Additional Interest {index + 1}".data }

/-- A data context whose auto.vehicles array has three elements. -/
def threeVehiclesContext : JSValue :=
  .vobj [("auto".data, .vobj [("vehicles".data, .varr [.vobj [], .vobj [], .vobj []])])]

/-- A data context whose home.additional_interests array has one
element. -/
def oneAdditionalInterestContext : JSValue :=
  .vobj [("home".data, .vobj [("additional_interests".data, .varr [.vobj []])])]

/-! Lemmas about the string helpers of the Template Resolver. -/

theorem replaceFirst_of_firstIdxOf_none {s pat : Str} (rep : Str)
    (h : firstIdxOf s pat = none) : replaceFirst s pat rep = s := by
  induction s with
  | nil =>
    simp only [firstIdxOf] at h
    split at h
    · exact absurd h (by simp)
    · next hpe => simp [replaceFirst, hpe]
  | cons c r ih =>
    simp only [firstIdxOf] at h
    split at h
    · exact absurd h (by simp)
    · next hpre =>
      match hm : firstIdxOf r pat with
      | some m => rw [hm] at h; simp at h
      | none => simp [replaceFirst, hpre, ih hm]

theorem replaceFirst_of_firstIdxOf_some {s pat : Str} (rep : Str) {n : Nat}
    (h : firstIdxOf s pat = some n) :
    replaceFirst s pat rep = s.take n ++ rep ++ s.drop (n + pat.length) := by
  induction s generalizing n with
  | nil =>
    simp only [firstIdxOf] at h
    split at h
    · next hpe =>
      simp only [Option.some_inj] at h
      subst h
      simp only [List.isEmpty_iff] at hpe
      simp [replaceFirst, hpe]
    · exact absurd h (by simp)
  | cons c r ih =>
    simp only [firstIdxOf] at h
    split at h
    · next hpre =>
      simp only [Option.some_inj] at h
      subst h
      have hdrop : (c :: r).drop pat.length = (c :: r).drop (0 + pat.length) := by
        simp
      simp [replaceFirst, hpre, ← hdrop]
    · next hpre =>
      match hm : firstIdxOf r pat with
      | none => rw [hm] at h; simp at h
      | some m =>
        rw [hm] at h
        simp at h
        subst h
        have := ih hm
        simp [replaceFirst, hpre, this, List.take_succ_cons, Nat.succ_add]

theorem templateScan_append_of_no_match {pre : List (Str × FieldConfiguration)}
    {k : Str} (rest : List (Str × FieldConfiguration))
    (h : ∀ p ∈ pre, (containsSub p.1 "[*]".data && rmatch (tokenize p.1) k) = false) :
    templateScan (pre ++ rest) k = templateScan rest k := by
  induction pre with
  | nil => simp
  | cons e t ih =>
    have he := h e (by simp)
    simp only [List.cons_append, templateScan, he, Bool.false_eq_true, if_false]
    exact ih fun p hp => h p (by simp [hp])

theorem templateScan_eq_none {entries : List (Str × FieldConfiguration)} {k : Str}
    (h : ∀ p ∈ entries, containsSub p.1 "[*]".data = true → rmatch (tokenize p.1) k = false) :
    templateScan entries k = none := by
  induction entries with
  | nil => rfl
  | cons e t ih =>
    have he : (containsSub e.1 "[*]".data && rmatch (tokenize e.1) k) = false := by
      by_cases hc : containsSub e.1 "[*]".data = true
      · simp [hc, h e (by simp) hc]
      · simp [Bool.eq_false_iff.mpr hc]
    simp only [templateScan, he, Bool.false_eq_true, if_false]
    exact ih fun p hp hc => h p (by simp [hp]) hc

/-! Claim theorems for the Template Resolver. -/

/-- Claim C2 (confirmed): for every key present verbatim in the field
registry, getFieldConfigForDataField returns exactly the stored
definition for that key, untouched: no template matching or group
rewriting is applied. -/
theorem c2_exact_match_precedence (registry : List (Str × FieldConfiguration))
    (dataFieldKey : Str) (config : FieldConfiguration)
    (h : lookupAL registry dataFieldKey = some config) :
    getFieldConfigForDataField registry dataFieldKey = some config := by
  simp [getFieldConfigForDataField, h]

/-- Claim C9 (confirmed): a data field key that neither appears verbatim
in the registry nor is matched by the pattern built from any template
key (a key containing "[*]") resolves to none, signalling NotFound. -/
theorem c9_not_found (registry : List (Str × FieldConfiguration)) (dataFieldKey : Str)
    (hexact : lookupAL registry dataFieldKey = none)
    (htmpl : ∀ p ∈ registry, containsSub p.1 "[*]".data = true →
      rmatch (tokenize p.1) dataFieldKey = false) :
    getFieldConfigForDataField registry dataFieldKey = none := by
  simp [getFieldConfigForDataField, hexact, templateScan_eq_none htmpl]

/-- Witness for claim C2 at a concrete registry and key. -/
theorem c2_exact_match_precedence_witness :
    getFieldConfigForDataField
      [("client.first_name".data,
        { key := "client.first_name".data, label := "First Name".data,
          inputType := .text, group := some "personal_information".data,
          order := 1, fieldSection := .applicant })]
      "client.first_name".data =
      some { key := "client.first_name".data, label := "First Name".data,
             inputType := .text, group := some "personal_information".data,
             order := 1, fieldSection := .applicant } :=
  c2_exact_match_precedence _ _ _ (by simp [lookupAL])

/-- Witness for claim C9 at a concrete registry holding one plain entry
and one template entry, with a key matching neither. -/
theorem c9_not_found_witness :
    getFieldConfigForDataField
      [("client.first_name".data,
        { key := "client.first_name".data, label := "First Name".data,
          inputType := .text, order := 1, fieldSection := .applicant }),
       ("auto.vehicles[*].vin".data,
        { key := "auto.vehicles[*].vin".data, label := "VIN".data,
          inputType := .vin, order := 2, fieldSection := .auto })]
      "home.year_built".data = none := by
  apply c9_not_found
  · simp [lookupAL]
  · intro p hp hc
    simp only [List.mem_cons, List.mem_singleton] at hp
    rcases hp with h1 | h1 | h1
    · subst h1
      simp [containsSub, List.isPrefixOf] at hc
    · subst h1
      simp [tokenize, collectDigits, rmatch, eatIdx, isLineTerm]
    · exact absurd h1 (by simp)

/-- Claim C1 (corrected): when a data field key has no exact entry and
the first registry entry whose key contains "[*]" and whose derived
pattern matches it is (templateKey, config), the resolver returns a copy
of config whose key is the data field key and whose other fields are
untouched, and whose group — contrary to the claim's suffix-only
description — is rewritten by replacing the first occurrence of the
substring "_template" anywhere in the group id with an underscore and
the first bracketed integer of the data field key; a group id without
that substring (or an absent group) is left unchanged. -/
theorem c1_template_rewrite_first_occurrence
    (registry : List (Str × FieldConfiguration)) (dataFieldKey : Str)
    (pre rest : List (Str × FieldConfiguration)) (templateKey : Str)
    (config : FieldConfiguration)
    (hreg : registry = pre ++ (templateKey, config) :: rest)
    (hexact : lookupAL registry dataFieldKey = none)
    (hpre : ∀ p ∈ pre,
      (containsSub p.1 "[*]".data && rmatch (tokenize p.1) dataFieldKey) = false)
    (hstar : containsSub templateKey "[*]".data = true)
    (hmatch : rmatch (tokenize templateKey) dataFieldKey = true)
    (index : Nat) (hindex : firstBracketNum dataFieldKey = some index) :
    ∃ res, getFieldConfigForDataField registry dataFieldKey = some res ∧
      res.key = dataFieldKey ∧
      res.label = config.label ∧
      res.description = config.description ∧
      res.inputType = config.inputType ∧
      res.options = config.options ∧
      res.stateSpecificOptions = config.stateSpecificOptions ∧
      res.dependsOnStateFrom = config.dependsOnStateFrom ∧
      res.required = config.required ∧
      res.order = config.order ∧
      res.fieldSection = config.fieldSection ∧
      (config.group = none → res.group = none) ∧
      (∀ g, config.group = some g → firstIdxOf g "_template".data = none →
        res.group = some g) ∧
      (∀ g n, config.group = some g → firstIdxOf g "_template".data = some n →
        res.group = some (g.take n ++ ('_' :: (Nat.repr index).data) ++ g.drop (n + 9))) := by
  subst hreg
  unfold getFieldConfigForDataField
  rw [hexact, templateScan_append_of_no_match _ hpre]
  simp only [templateScan, hstar, hmatch, Bool.and_self, if_true]
  refine ⟨_, rfl, ?_, ?_, ?_, ?_, ?_, ?_, ?_, ?_, ?_, ?_, ?_, ?_, ?_⟩ <;>
    simp only [rewriteConfig, hindex]
  · intro hg
    simp [hg]
  · intro g hg hnone
    simp [hg, replaceFirst_of_firstIdxOf_none _ hnone]
  · intro g n hg hsome
    have h9 : ("_template".data).length = 9 := by rfl
    simp [hg, replaceFirst_of_firstIdxOf_some _ hsome, h9]

/-- Witness for the corrected claim C1 at a concrete one-template
registry, covering both the key rewrite and the group rewrite of a
suffix occurrence of "_template". -/
theorem c1_template_rewrite_first_occurrence_witness :
    ∃ res, getFieldConfigForDataField
      [("client.household_members[*].first_name".data,
        { key := "client.household_members[*].first_name".data,
          label := "First Name".data, inputType := .text,
          group := some "household_member_template".data,
          order := 1, fieldSection := .applicant })]
      "client.household_members[2].first_name".data = some res ∧
      res.key = "client.household_members[2].first_name".data ∧
      res.group = some "household_member_2".data := by
  obtain ⟨res, h1, h2, _, _, _, _, _, _, _, _, _, _, _, hg⟩ :=
    c1_template_rewrite_first_occurrence _
      "client.household_members[2].first_name".data
      [] [] "client.household_members[*].first_name".data
      { key := "client.household_members[*].first_name".data,
        label := "First Name".data, inputType := .text,
        group := some "household_member_template".data,
        order := 1, fieldSection := .applicant }
      rfl
      (by simp [lookupAL])
      (by intro p hp; exact absurd hp (by simp))
      (by decide)
      (by simp [tokenize, collectDigits, rmatch, eatIdx, isLineTerm])
      2
      (by simp [firstBracketNum, collectDigits, digitsVal])
  refine ⟨res, h1, h2, ?_⟩
  rw [hg "household_member_template".data 16 rfl (by decide)]
  rfl

/-- Counterexample to claim C1 as stated: the template's group id
"x_template_y" contains "_template" in the middle and does not end with
it, so the claim predicts the group is left unchanged; the code rewrites
it to "x_0_y" because String.replace substitutes the first occurrence
anywhere, not only a suffix. -/
theorem c1_counterexample_middle_template :
    (getFieldConfigForDataField
      [("a[*]".data,
        { key := "a[*]".data, label := "L".data, inputType := .text,
          group := some "x_template_y".data, order := 1, fieldSection := .home })]
      "a[0]".data).map (fun c => c.group) = some (some "x_0_y".data) ∧
    ("_template".data).isSuffixOf "x_template_y".data = false ∧
    "x_0_y".data ≠ "x_template_y".data := by
  refine ⟨?_, by decide, by decide⟩
  simp [getFieldConfigForDataField, lookupAL, templateScan, containsSub, tokenize,
        collectDigits, rmatch, eatIdx, rewriteConfig, firstBracketNum, replaceFirst,
        digitsVal, isLineTerm]
  rfl

/-- Claim C10 (confirmed): the matcher does not escape the dot
characters of a template key, so they match any character: the key
"clientXhousehold_members[0]Xfirst_name", which differs from the
template key only at the two dot positions, still resolves to the
template's definition (same label, rewritten key and group) instead of
NotFound, even though it is not an exact entry. -/
theorem c10_unescaped_dot_matches :
    (getFieldConfigForDataField
      [("client.household_members[*].first_name".data,
        { key := "client.household_members[*].first_name".data,
          label := "First Name".data, inputType := .text,
          group := some "household_member_template".data,
          order := 1, fieldSection := .applicant })]
      "clientXhousehold_members[0]Xfirst_name".data).map
        (fun c => (c.key, c.group, c.label)) =
      some ("clientXhousehold_members[0]Xfirst_name".data,
            some "household_member_0".data, "First Name".data) ∧
    lookupAL
      [("client.household_members[*].first_name".data,
        ({ key := "client.household_members[*].first_name".data,
           label := "First Name".data, inputType := .text,
           group := some "household_member_template".data,
           order := 1, fieldSection := .applicant } : FieldConfiguration))]
      "clientXhousehold_members[0]Xfirst_name".data = none := by
  constructor
  · simp [getFieldConfigForDataField, lookupAL, templateScan, containsSub, tokenize,
          collectDigits, rmatch, eatIdx, rewriteConfig, firstBracketNum, replaceFirst,
          digitsVal, isLineTerm]
    rfl
  · simp [lookupAL]

/-! Claim theorems for the State Option Resolver. -/

theorem lookupAL_mem_keys {α : Type} {l : List (Str × α)} {k : Str} {v : α}
    (h : lookupAL l k = some v) : k ∈ l.map Prod.fst := by
  induction l with
  | nil => exact Option.noConfusion h
  | cons e t ih =>
    simp only [lookupAL] at h
    split at h
    · next he => rw [List.map_cons, ← he]; exact List.mem_cons_self _ _
    · rw [List.map_cons]; exact List.mem_cons_of_mem _ (ih h)

/-- Claim C3 (confirmed): for a field definition with no static options
and with both stateSpecificOptions and dependsOnStateFrom set (a set
path is a non-empty string, and the map's region-code keys are the
non-empty 2-letter codes of the data model), getFieldOptions returns
the list mapped to the upper-cased value read at the path when that
code is a key of the map, and the default list when the path is missing
from the data context or the upper-cased value is not a key. -/
theorem c3_state_specific_options
    (fc : FieldConfiguration) (sso : StateSpecificOptions) (path : Str)
    (d : Option JSValue)
    (hopts : fc.options = none)
    (hsso : fc.stateSpecificOptions = some sso)
    (hpath : fc.dependsOnStateFrom = some path)
    (hpathne : path ≠ [])
    (hkeys : ∀ k ∈ sso.byState.map Prod.fst, k ≠ []) :
    (∀ s opts, getNestedValue d path = some (.vstr s) →
      lookupAL sso.byState (upper s) = some opts →
      getFieldOptions fc d = .ok opts) ∧
    (getNestedValue d path = none → getFieldOptions fc d = .ok sso.default) ∧
    (∀ s, getNestedValue d path = some (.vstr s) →
      lookupAL sso.byState (upper s) = none →
      getFieldOptions fc d = .ok sso.default) := by
  have hne : path.isEmpty = false := by
    cases path with
    | nil => exact absurd rfl hpathne
    | cons c r => rfl
  refine ⟨?_, ?_, ?_⟩
  · intro s opts hval hlk
    have hcode : upper s ≠ [] := hkeys _ (lookupAL_mem_keys hlk)
    have hcodee : (upper s).isEmpty = false := by
      cases hu : upper s with
      | nil => exact absurd hu hcode
      | cons c r => rfl
    simp [getFieldOptions, hopts, hsso, hpath, hne, hval, hcodee, hlk]
  · intro hval
    simp [getFieldOptions, hopts, hsso, hpath, hne, hval]
  · intro s hval hlk
    by_cases hcodee : (upper s).isEmpty
    · simp [getFieldOptions, hopts, hsso, hpath, hne, hval, hcodee]
    · simp [getFieldOptions, hopts, hsso, hpath, hne, hval, hcodee, hlk]

/-- Witness for claim C3: the lower-case state value "fl" yields the FL
list after normalization, the unmapped value "TX" yields the default
list, and a context without the state path yields the default list. -/
theorem c3_state_specific_options_witness :
    getFieldOptions roofTypeConfig (some (stateContext (.vstr "fl".data))) =
      .ok flRoofOptions ∧
    getFieldOptions roofTypeConfig (some (stateContext (.vstr "TX".data))) =
      .ok defaultRoofOptions ∧
    getFieldOptions roofTypeConfig (some (.vobj [])) = .ok defaultRoofOptions := by
  refine ⟨?_, ?_, ?_⟩
  · exact (c3_state_specific_options roofTypeConfig roofSso
      "home.property_address.state".data (some (stateContext (.vstr "fl".data)))
      rfl rfl rfl (by decide) (by decide)).1 "fl".data flRoofOptions rfl rfl
  · exact (c3_state_specific_options roofTypeConfig roofSso
      "home.property_address.state".data (some (stateContext (.vstr "TX".data)))
      rfl rfl rfl (by decide) (by decide)).2.2 "TX".data rfl rfl
  · exact (c3_state_specific_options roofTypeConfig roofSso
      "home.property_address.state".data (some (.vobj []))
      rfl rfl rfl (by decide) (by decide)).2.1 rfl

/-- Counterexample to claim C4 as stated: with a malformed (numeric)
value at the dependsOnStateFrom path, getFieldOptions raises a
TypeError (stateFieldValue?.toUpperCase() on a number), instead of
degrading to a list: the error branch is reachable. -/
theorem c4_counterexample_typeerror :
    getFieldOptions roofTypeConfig (some (stateContext (.vnum 5))) = .error () := rfl

/-- Claim C4 (corrected): getFieldOptions never throws provided every
value readable at the configured dependsOnStateFrom path is a string or
null (or the path is absent); in all such cases the result degrades to
the static options list, a state-specific list, the default list, or
the empty list.  (A defined non-null, non-string value at the path
raises a TypeError, as the counterexample shows.) -/
theorem c4_no_throw_on_stringlike_state
    (fc : FieldConfiguration) (d : Option JSValue)
    (hsafe : ∀ path, fc.dependsOnStateFrom = some path →
      ∀ v, getNestedValue d path = some v → (∃ s, v = .vstr s) ∨ v = .vnull) :
    ∃ opts, getFieldOptions fc d = .ok opts ∧
      (fc.options = some opts ∨ opts = [] ∨
        (∃ sso, fc.stateSpecificOptions = some sso ∧
          (opts = sso.default ∨ ∃ code, lookupAL sso.byState code = some opts))) := by
  match hop : fc.options with
  | some opts => exact ⟨opts, by simp [getFieldOptions, hop], Or.inl rfl⟩
  | none =>
    match hsso : fc.stateSpecificOptions, hdep : fc.dependsOnStateFrom with
    | some sso, some path =>
      by_cases hpe : path.isEmpty
      · exact ⟨[], by simp [getFieldOptions, hop, hsso, hdep, hpe], Or.inr (Or.inl rfl)⟩
      · match hval : getNestedValue d path with
        | none =>
          refine ⟨sso.default, by simp [getFieldOptions, hop, hsso, hdep, hpe, hval], ?_⟩
          exact Or.inr (Or.inr ⟨sso, rfl, Or.inl rfl⟩)
        | some v =>
          rcases hsafe path hdep v hval with ⟨s, hv⟩ | hv
          · subst hv
            by_cases hcode : (upper s).isEmpty
            · refine ⟨sso.default,
                by simp [getFieldOptions, hop, hsso, hdep, hpe, hval, hcode], ?_⟩
              exact Or.inr (Or.inr ⟨sso, rfl, Or.inl rfl⟩)
            · match hlk : lookupAL sso.byState (upper s) with
              | some opts =>
                refine ⟨opts,
                  by simp [getFieldOptions, hop, hsso, hdep, hpe, hval, hcode, hlk], ?_⟩
                exact Or.inr (Or.inr ⟨sso, rfl, Or.inr ⟨upper s, hlk⟩⟩)
              | none =>
                refine ⟨sso.default,
                  by simp [getFieldOptions, hop, hsso, hdep, hpe, hval, hcode, hlk], ?_⟩
                exact Or.inr (Or.inr ⟨sso, rfl, Or.inl rfl⟩)
          · subst hv
            refine ⟨sso.default, by simp [getFieldOptions, hop, hsso, hdep, hpe, hval], ?_⟩
            exact Or.inr (Or.inr ⟨sso, rfl, Or.inl rfl⟩)
    | some sso, none =>
      exact ⟨[], by simp [getFieldOptions, hop, hsso, hdep], Or.inr (Or.inl rfl)⟩
    | none, hd =>
      exact ⟨[], by simp [getFieldOptions, hop, hsso], Or.inr (Or.inl rfl)⟩

/-- Witness for the corrected claim C4: with a lower-case string state
value the call returns normally. -/
theorem c4_no_throw_on_stringlike_state_witness :
    getFieldOptions roofTypeConfig (some (stateContext (.vstr "fl".data))) ≠
      .error () := by
  obtain ⟨opts, hok, _⟩ := c4_no_throw_on_stringlike_state roofTypeConfig
    (some (stateContext (.vstr "fl".data)))
    (by
      intro path hp v hv
      have hp2 : "home.property_address.state".data = path := by
        simpa [roofTypeConfig] using hp
      subst hp2
      have hvv : getNestedValue (some (stateContext (.vstr "fl".data)))
          "home.property_address.state".data = some (.vstr "fl".data) := rfl
      rw [hvv] at hv
      exact Or.inl ⟨"fl".data, (Option.some_inj.mp hv).symm⟩)
  simp [hok]

/-! Claim theorems for the Dynamic Group Materializer. -/

/-- Claim C5 (code bug): the source's own group registry declares the
template group additional_interests_template with templatePattern
"home.additional_interests[*]", yet createDynamicGroups has no branch
for that pattern: against a data context whose home.additional_interests
array is non-empty (here a one-element array, exhibited by the first
conjunct), the materializer emits zero groups instead of one group per
element. -/
theorem c5_additional_interests_never_materialized :
    getCollection oneAdditionalInterestContext "home".data
      "additional_interests".data = .ok [.vobj []] ∧
    createDynamicGroups oneAdditionalInterestContext
      [additionalInterestsTemplate] = .ok [] :=
  ⟨rfl, rfl⟩

/-- Claim C6 (confirmed): for a template group with pattern
auto.vehicles[*] and any data context whose auto.vehicles collection
reads as the array elems (the empty array also when the property is
missing or falsy), the materializer emits exactly one concrete group per
element, in index order, with id "vehicle_<i>", name "Vehicle <i+1>",
order template.order + i, and the template's parentGroup; an empty or
missing array therefore yields zero groups. -/
theorem c6_vehicle_group_per_element
    (template : FieldGroup) (data : JSValue) (elems : List JSValue)
    (ht : template.isTemplate = true)
    (hpat : template.templatePattern = some "auto.vehicles[*]".data)
    (hcoll : getCollection data "auto".data "vehicles".data = .ok elems) :
    ∃ gs, createDynamicGroups data [template] = .ok gs ∧
      gs.length = elems.length ∧
      (elems = [] → gs = []) ∧
      (∀ i (hi : i < gs.length),
        (gs.get ⟨i, hi⟩).id = "vehicle_".data ++ (Nat.repr i).data ∧
        (gs.get ⟨i, hi⟩).name = "Vehicle ".data ++ (Nat.repr (i + 1)).data ∧
        (gs.get ⟨i, hi⟩).order = template.order + (i : Rat) ∧
        (gs.get ⟨i, hi⟩).parentGroup = template.parentGroup) := by
  have hstr : strTruthy template.templatePattern = true := by
    rw [hpat]; rfl
  have hne : ¬ template.templatePattern = some "client.household_members[*]".data := by
    rw [hpat]; decide
  refine ⟨materializedGroups "vehicle_".data "Vehicle ".data
    "Information for vehicle ".data template elems, ?_, ?_, ?_, ?_⟩
  · simp only [createDynamicGroups, dynamicGroupsFor, ht, hstr, Bool.not_true,
      Bool.false_or, Bool.or_self, Bool.false_eq_true, if_false, hne, hpat,
      if_true, hcoll]
    simp [strTruthy, Except.map, Bind.bind, Except.bind]
  · simp [materializedGroups]
  · intro he
    simp [materializedGroups, he]
  · intro i hi
    have hlen : i < elems.length := by
      simpa [materializedGroups] using hi
    refine ⟨?_, ?_, ?_, ?_⟩ <;>
      simp [materializedGroups, List.get_eq_getElem, List.getElem_map,
        List.getElem_range]

/-- Witness for claim C6: three vehicles materialize into exactly three
groups. -/
theorem c6_vehicle_group_per_element_witness :
    (createDynamicGroups threeVehiclesContext [vehicleTemplate]).map
      List.length = .ok 3 := by
  obtain ⟨gs, hok, hlen, _, _⟩ := c6_vehicle_group_per_element vehicleTemplate
    threeVehiclesContext [.vobj [], .vobj [], .vobj []] rfl rfl rfl
  rw [hok]
  simp [Except.map, hlen]

/-! Stable sorting lemmas for the Group Hierarchy Builder: the insertion
sort is sorted, is a permutation preserving membership, and preserves
the relative order of groups of equal order (stated as preservation of
every equal-order filter, which together with sortedness pins the
output down uniquely as the stable ascending sort). -/

theorem mem_sinsert {x g : FieldGroup} {l : List FieldGroup} :
    x ∈ sinsert g l ↔ x = g ∨ x ∈ l := by
  induction l with
  | nil => simp [sinsert]
  | cons b bs ih =>
    simp only [sinsert]
    split <;> simp only [List.mem_cons, ih] <;> try tauto

theorem pairwise_sinsert {g : FieldGroup} {l : List FieldGroup}
    (h : l.Pairwise (fun a b => a.order ≤ b.order)) :
    (sinsert g l).Pairwise (fun a b => a.order ≤ b.order) := by
  induction l with
  | nil => simp [sinsert]
  | cons b bs ih =>
    rcases List.pairwise_cons.mp h with ⟨hb, hbs⟩
    simp only [sinsert]
    split
    · next hle =>
      refine List.pairwise_cons.mpr ⟨?_, ih hbs⟩
      intro x hx
      rcases mem_sinsert.mp hx with rfl | hx
      · exact hle
      · exact hb x hx
    · next hgt =>
      have hgb : g.order ≤ b.order := le_of_not_le hgt
      refine List.pairwise_cons.mpr ⟨?_, h⟩
      intro x hx
      rcases List.mem_cons.mp hx with rfl | hx
      · exact hgb
      · exact le_trans hgb (hb x hx)

theorem filter_sinsert_ne {g : FieldGroup} {l : List FieldGroup} {q : Rat}
    (hq : ¬ g.order = q) :
    (sinsert g l).filter (fun x => decide (x.order = q)) =
      l.filter (fun x => decide (x.order = q)) := by
  induction l with
  | nil => simp [sinsert, hq]
  | cons b bs ih =>
    simp only [sinsert]
    split
    · simp [List.filter_cons, ih]
    · simp [List.filter_cons, hq]

theorem filter_sinsert_eq {g : FieldGroup} {l : List FieldGroup} {q : Rat}
    (h : l.Pairwise (fun a b => a.order ≤ b.order)) (hq : g.order = q) :
    (sinsert g l).filter (fun x => decide (x.order = q)) =
      l.filter (fun x => decide (x.order = q)) ++ [g] := by
  induction l with
  | nil => simp [sinsert, hq]
  | cons b bs ih =>
    rcases List.pairwise_cons.mp h with ⟨hb, hbs⟩
    simp only [sinsert]
    split
    · next hle =>
      simp only [List.filter_cons, ih hbs]
      split <;> simp
    · next hgt =>
      have hnone : ∀ x ∈ b :: bs, ¬ x.order = q := by
        intro x hx hxq
        rcases List.mem_cons.mp hx with rfl | hx
        · exact hgt (le_of_eq (hxq.trans hq.symm))
        · exact hgt ((hb x hx).trans_eq (hxq.trans hq.symm))
      have hfe : (b :: bs).filter (fun x => decide (x.order = q)) = [] := by
        rw [List.filter_eq_nil_iff]
        intro x hx
        simpa using hnone x hx
      simp [List.filter_cons, hq, hfe]

theorem foldl_sinsert_pairwise (l : List FieldGroup) :
    ∀ acc : List FieldGroup, acc.Pairwise (fun a b => a.order ≤ b.order) →
      (l.foldl (fun a g => sinsert g a) acc).Pairwise (fun a b => a.order ≤ b.order) := by
  induction l with
  | nil => intro acc hacc; simpa using hacc
  | cons b bs ih =>
    intro acc hacc
    exact ih _ (pairwise_sinsert hacc)

theorem foldl_sinsert_filter (l : List FieldGroup) :
    ∀ (acc : List FieldGroup) (q : Rat),
      acc.Pairwise (fun a b => a.order ≤ b.order) →
      (l.foldl (fun a g => sinsert g a) acc).filter (fun x => decide (x.order = q)) =
        acc.filter (fun x => decide (x.order = q)) ++
          l.filter (fun x => decide (x.order = q)) := by
  induction l with
  | nil => intro acc q hacc; simp
  | cons b bs ih =>
    intro acc q hacc
    simp only [List.foldl_cons]
    rw [ih _ q (pairwise_sinsert hacc)]
    by_cases hb : b.order = q
    · rw [filter_sinsert_eq hacc hb]
      simp [List.filter_cons, hb]
    · rw [filter_sinsert_ne hb]
      simp [List.filter_cons, hb]

theorem mem_foldl_sinsert {x : FieldGroup} (l : List FieldGroup) :
    ∀ acc : List FieldGroup,
      x ∈ l.foldl (fun a g => sinsert g a) acc ↔ x ∈ acc ∨ x ∈ l := by
  induction l with
  | nil => intro acc; simp
  | cons b bs ih =>
    intro acc
    simp only [List.foldl_cons, ih, mem_sinsert, List.mem_cons]
    tauto

theorem sortByOrder_pairwise (l : List FieldGroup) :
    (sortByOrder l).Pairwise (fun a b => a.order ≤ b.order) :=
  foldl_sinsert_pairwise l [] (by simp)

theorem sortByOrder_filter (l : List FieldGroup) (q : Rat) :
    (sortByOrder l).filter (fun x => decide (x.order = q)) =
      l.filter (fun x => decide (x.order = q)) := by
  simpa using foldl_sinsert_filter l [] q (by simp)

theorem mem_sortByOrder {x : FieldGroup} {l : List FieldGroup} :
    x ∈ sortByOrder l ↔ x ∈ l := by
  simpa using mem_foldl_sinsert l []

/-! Association-list lemmas for the builder's dictionary operations. -/

theorem lookupAL_alSet {α : Type} (h : List (Str × α)) (k : Str) (v : α) (k2 : Str) :
    lookupAL (alSet h k v) k2 = if k = k2 then some v else lookupAL h k2 := by
  induction h with
  | nil =>
    simp only [alSet, lookupAL]
  | cons e t ih =>
    match e with
    | (k', v') =>
      simp only [alSet]
      by_cases hk : k' = k
      · subst hk
        by_cases hk2 : k' = k2 <;> simp [lookupAL, hk2]
      · simp only [if_neg hk, lookupAL]
        by_cases hk2 : k' = k2
        · subst hk2
          have hne : ¬ k = k' := fun he => hk he.symm
          simp [hne]
        · simp [hk2, ih]

theorem lookupAL_alPush (h : List (Str × List FieldGroup)) (k : Str) (g : FieldGroup)
    (k2 : Str) :
    lookupAL (alPush h k g) k2 =
      if k = k2 then (lookupAL h k2).map (fun l => l ++ [g]) else lookupAL h k2 := by
  induction h with
  | nil => simp [alPush, lookupAL]
  | cons e t ih =>
    match e with
    | (k', l) =>
      simp only [alPush]
      by_cases hk : k' = k
      · subst hk
        by_cases hk2 : k' = k2 <;> simp [lookupAL, hk2]
      · simp only [if_neg hk, lookupAL]
        by_cases hk2 : k' = k2
        · subst hk2
          have hne : ¬ k = k' := fun he => hk he.symm
          simp [hne]
        · simp [hk2, ih]

theorem lookupAL_mapVal (f : List FieldGroup → List FieldGroup)
    (h : List (Str × List FieldGroup)) (k : Str) :
    lookupAL (h.map fun e => (e.1, f e.2)) k = (lookupAL h k).map f := by
  induction h with
  | nil => simp [lookupAL]
  | cons e t ih =>
    simp only [List.map_cons, lookupAL]
    by_cases hk : e.1 = k <;> simp [hk, ih]

/-! Characterization of the builder's two passes. -/

theorem initStep_falsy {p : List FieldGroup × List (Str × List FieldGroup)}
    {g : FieldGroup} (hb : strTruthy g.parentGroup = false) :
    initStep p g = (p.1 ++ [g], alSet p.2 g.id []) := by
  simp [initStep, hb]

theorem initStep_truthy {p : List FieldGroup × List (Str × List FieldGroup)}
    {g : FieldGroup} (hb : strTruthy g.parentGroup = true) :
    initStep p g = p := by
  simp [initStep, hb]

theorem initPass_fst (gs : List FieldGroup) :
    ∀ p : List FieldGroup × List (Str × List FieldGroup),
      (gs.foldl initStep p).1 =
        p.1 ++ gs.filter (fun g => !strTruthy g.parentGroup) := by
  induction gs with
  | nil => intro p; simp
  | cons g t ih =>
    intro p
    rw [List.foldl_cons, List.filter_cons]
    cases hb : strTruthy g.parentGroup with
    | false =>
      rw [initStep_falsy hb, ih]
      simp [hb]
    | true =>
      rw [initStep_truthy hb, ih]
      simp [hb]

theorem initPass_snd (gs : List FieldGroup) :
    ∀ (p : List FieldGroup × List (Str × List FieldGroup)) (k : Str),
      lookupAL (gs.foldl initStep p).2 k =
        if k ∈ (gs.filter (fun g => !strTruthy g.parentGroup)).map (fun g => g.id)
        then some [] else lookupAL p.2 k := by
  induction gs with
  | nil => intro p k; simp
  | cons g t ih =>
    intro p k
    rw [List.foldl_cons, List.filter_cons]
    cases hb : strTruthy g.parentGroup with
    | false =>
      rw [initStep_falsy hb, ih]
      simp only [hb, Bool.not_false, if_true, List.map_cons, List.mem_cons]
      by_cases h1 : k ∈ (t.filter (fun g => !strTruthy g.parentGroup)).map (fun g => g.id)
      · simp [h1]
      · rw [lookupAL_alSet]
        by_cases h2 : g.id = k
        · simp [h1, h2]
        · have h2s : ¬ k = g.id := fun he => h2 he.symm
          simp [h1, h2, h2s]
    | true =>
      rw [initStep_truthy hb, ih]
      simp [hb]

theorem childStep_none {h : List (Str × List FieldGroup)} {g : FieldGroup}
    (hpg : g.parentGroup = none) : childStep h g = h := by
  simp [childStep, hpg]

theorem childStep_guard_true {h : List (Str × List FieldGroup)} {g : FieldGroup}
    {p : Str} (hpg : g.parentGroup = some p)
    (hguard : (!p.isEmpty && (lookupAL h p).isSome) = true) :
    childStep h g = alPush h p g := by
  simp [childStep, hpg, hguard]

theorem childStep_guard_false {h : List (Str × List FieldGroup)} {g : FieldGroup}
    {p : Str} (hpg : g.parentGroup = some p)
    (hguard : (!p.isEmpty && (lookupAL h p).isSome) = false) :
    childStep h g = h := by
  simp [childStep, hpg, hguard]

theorem childPass_lookup (gs : List FieldGroup) :
    ∀ (h : List (Str × List FieldGroup)) (k : Str) (l0 : List FieldGroup),
      lookupAL h k = some l0 →
      lookupAL (childPass gs h) k = some (l0 ++ gs.filter (childP k)) := by
  induction gs with
  | nil => intro h k l0 hl; simpa [childPass] using hl
  | cons g t ih =>
    intro h k l0 hl
    show lookupAL (List.foldl childStep (childStep h g) t) k = _
    rw [List.filter_cons]
    match hpg : g.parentGroup with
    | none =>
      have hcp : childP k g = false := by simp [childP, hpg]
      rw [childStep_none hpg, hcp]
      simpa using ih h k l0 hl
    | some p =>
      by_cases hpe : p.isEmpty
      · have hcp : childP k g = false := by simp [childP, hpg, hpe]
        have hguard : (!p.isEmpty && (lookupAL h p).isSome) = false := by
          simp [hpe]
        rw [childStep_guard_false hpg hguard, hcp]
        simpa using ih h k l0 hl
      · by_cases hpk : p = k
        · subst hpk
          have hcp : childP p g = true := by simp [childP, hpg, hpe]
          have hguard : (!p.isEmpty && (lookupAL h p).isSome) = true := by
            simp [hpe, hl]
          have hl2 : lookupAL (alPush h p g) p = some (l0 ++ [g]) := by
            rw [lookupAL_alPush]
            simp [hl]
          rw [childStep_guard_true hpg hguard, hcp]
          simpa [List.append_assoc] using ih (alPush h p g) p (l0 ++ [g]) hl2
        · have hcp : childP k g = false := by simp [childP, hpg, hpk]
          rw [hcp]
          by_cases hguard : (!p.isEmpty && (lookupAL h p).isSome) = true
          · have hl2 : lookupAL (alPush h p g) k = some l0 := by
              rw [lookupAL_alPush]
              simp [hpk, hl]
            rw [childStep_guard_true hpg hguard]
            simpa using ih (alPush h p g) k l0 hl2
          · have hguard2 : (!p.isEmpty && (lookupAL h p).isSome) = false :=
              Bool.eq_false_iff.mpr hguard
            rw [childStep_guard_false hpg hguard2]
            simpa using ih h k l0 hl

theorem childPass_lookup_none (gs : List FieldGroup) :
    ∀ (h : List (Str × List FieldGroup)) (k : Str),
      lookupAL h k = none → lookupAL (childPass gs h) k = none := by
  induction gs with
  | nil => intro h k hl; simpa [childPass] using hl
  | cons g t ih =>
    intro h k hl
    show lookupAL (List.foldl childStep (childStep h g) t) k = none
    match hpg : g.parentGroup with
    | none =>
      rw [childStep_none hpg]
      exact ih h k hl
    | some p =>
      by_cases hguard : (!p.isEmpty && (lookupAL h p).isSome) = true
      · have hl2 : lookupAL (alPush h p g) k = none := by
          rw [lookupAL_alPush]
          by_cases hpk : p = k
          · subst hpk; simp [hl]
          · simp [hpk, hl]
        rw [childStep_guard_true hpg hguard]
        exact ih (alPush h p g) k hl2
      · have hguard2 : (!p.isEmpty && (lookupAL h p).isSome) = false :=
          Bool.eq_false_iff.mpr hguard
        rw [childStep_guard_false hpg hguard2]
        exact ih h k hl

/-! Assembly lemmas for the builder. -/

theorem buildGroupHierarchy_topLevel (fg : List (Str × FieldGroup))
    (dg : List FieldGroup) :
    (buildGroupHierarchy fg dg).topLevel =
      sortByOrder ((fg.map Prod.snd ++ dg).filter (fun g => !strTruthy g.parentGroup)) := by
  show sortByOrder (List.foldl initStep ([], []) (fg.map Prod.snd ++ dg)).1 = _
  rw [initPass_fst]
  rw [List.nil_append]

theorem buildGroupHierarchy_lookup (fg : List (Str × FieldGroup))
    (dg : List FieldGroup) (k : Str) :
    lookupAL (buildGroupHierarchy fg dg).hierarchy k =
      if k ∈ ((fg.map Prod.snd ++ dg).filter
          (fun g => !strTruthy g.parentGroup)).map (fun g => g.id)
      then some (sortByOrder ((fg.map Prod.snd ++ dg).filter (childP k)))
      else none := by
  show lookupAL (List.map (fun e => (e.1, sortByOrder e.2))
      (childPass (fg.map Prod.snd ++ dg)
        (List.foldl initStep ([], []) (fg.map Prod.snd ++ dg)).2)) k = _
  rw [lookupAL_mapVal]
  by_cases hk : k ∈ ((fg.map Prod.snd ++ dg).filter
      (fun g => !strTruthy g.parentGroup)).map (fun g => g.id)
  · have h0 : lookupAL (List.foldl initStep ([], []) (fg.map Prod.snd ++ dg)).2 k =
        some [] := by
      rw [initPass_snd, if_pos hk]
    have h1 := childPass_lookup (fg.map Prod.snd ++ dg) _ k [] h0
    rw [h1, if_pos hk]
    show some (sortByOrder ([] ++ (fg.map Prod.snd ++ dg).filter (childP k))) = _
    rw [List.nil_append]
  · have h0 : lookupAL (List.foldl initStep ([], []) (fg.map Prod.snd ++ dg)).2 k =
        none := by
      rw [initPass_snd, if_neg hk]
      rfl
    have h1 := childPass_lookup_none (fg.map Prod.snd ++ dg) _ k h0
    rw [h1, if_neg hk]
    rfl

/-! Claim theorems for the Group Hierarchy Builder. -/

/-- Claim C7 (confirmed): the builder returns a topLevel list sorted
ascending by order and children buckets sorted ascending by order, both
stably — groups of any fixed order appear exactly as in insertion
order, stated as preservation of every equal-order filter —, and every
group without a parentGroup gets a children bucket, even an empty
one. -/
theorem c7_hierarchy_sorted_stable (fg : List (Str × FieldGroup))
    (dg : List FieldGroup) :
    (buildGroupHierarchy fg dg).topLevel.Pairwise (fun a b => a.order ≤ b.order) ∧
    (∀ k l, lookupAL (buildGroupHierarchy fg dg).hierarchy k = some l →
      l.Pairwise (fun a b => a.order ≤ b.order)) ∧
    (∀ q : Rat, (buildGroupHierarchy fg dg).topLevel.filter
        (fun g => decide (g.order = q)) =
      ((fg.map Prod.snd ++ dg).filter (fun g => !strTruthy g.parentGroup)).filter
        (fun g => decide (g.order = q))) ∧
    (∀ k l, lookupAL (buildGroupHierarchy fg dg).hierarchy k = some l →
      ∀ q : Rat, l.filter (fun g => decide (g.order = q)) =
        ((fg.map Prod.snd ++ dg).filter (childP k)).filter
          (fun g => decide (g.order = q))) ∧
    (∀ g ∈ fg.map Prod.snd ++ dg, g.parentGroup = none →
      ∃ l, lookupAL (buildGroupHierarchy fg dg).hierarchy g.id = some l) := by
  refine ⟨?_, ?_, ?_, ?_, ?_⟩
  · rw [buildGroupHierarchy_topLevel]
    exact sortByOrder_pairwise _
  · intro k l hl
    rw [buildGroupHierarchy_lookup] at hl
    split at hl
    · cases hl
      exact sortByOrder_pairwise _
    · exact Option.noConfusion hl
  · intro q
    rw [buildGroupHierarchy_topLevel, sortByOrder_filter]
  · intro k l hl q
    rw [buildGroupHierarchy_lookup] at hl
    split at hl
    · cases hl
      exact sortByOrder_filter _ q
    · exact Option.noConfusion hl
  · intro g hg hpg
    have hmem : g ∈ (fg.map Prod.snd ++ dg).filter (fun x => !strTruthy x.parentGroup) := by
      rw [List.mem_filter]
      exact ⟨hg, by rw [hpg]; rfl⟩
    have hid : g.id ∈ ((fg.map Prod.snd ++ dg).filter
        (fun x => !strTruthy x.parentGroup)).map (fun x => x.id) :=
      List.mem_map_of_mem _ hmem
    refine ⟨sortByOrder ((fg.map Prod.snd ++ dg).filter (childP g.id)), ?_⟩
    rw [buildGroupHierarchy_lookup, if_pos hid]

/-- Witness for claim C7 at the specification's example: top-level
orders 3, 1, 2 and children of group "b" with orders 20, 10 come out
sorted, and the childless top-level group "a" has an (empty) bucket. -/
theorem c7_hierarchy_sorted_stable_witness :
    ((buildGroupHierarchy
      [("a".data, { id := "a".data, name := "A".data, order := 3 }),
       ("b".data, { id := "b".data, name := "B".data, order := 1 }),
       ("c".data, { id := "c".data, name := "C".data, order := 2 }),
       ("k1".data, { id := "k1".data, name := "K1".data, order := 20,
                     parentGroup := some "b".data }),
       ("k2".data, { id := "k2".data, name := "K2".data, order := 10,
                     parentGroup := some "b".data })] []).topLevel.Pairwise
      (fun a b => a.order ≤ b.order)) ∧
    List.Pairwise (fun a b => a.order ≤ b.order)
      [({ id := "k2".data, name := "K2".data, order := 10,
          parentGroup := some "b".data } : FieldGroup),
       { id := "k1".data, name := "K1".data, order := 20,
         parentGroup := some "b".data }] ∧
    lookupAL (buildGroupHierarchy
      [("a".data, { id := "a".data, name := "A".data, order := 3 }),
       ("b".data, { id := "b".data, name := "B".data, order := 1 }),
       ("c".data, { id := "c".data, name := "C".data, order := 2 }),
       ("k1".data, { id := "k1".data, name := "K1".data, order := 20,
                     parentGroup := some "b".data }),
       ("k2".data, { id := "k2".data, name := "K2".data, order := 10,
                     parentGroup := some "b".data })] []).hierarchy "a".data = some [] := by
  refine ⟨?_, ?_, ?_⟩
  · exact (c7_hierarchy_sorted_stable _ _).1
  · exact (c7_hierarchy_sorted_stable
      [("a".data, { id := "a".data, name := "A".data, order := 3 }),
       ("b".data, { id := "b".data, name := "B".data, order := 1 }),
       ("c".data, { id := "c".data, name := "C".data, order := 2 }),
       ("k1".data, { id := "k1".data, name := "K1".data, order := 20,
                     parentGroup := some "b".data }),
       ("k2".data, { id := "k2".data, name := "K2".data, order := 10,
                     parentGroup := some "b".data })] []).2.1 "b".data _ (by rfl)
  · obtain ⟨l, hl⟩ := (c7_hierarchy_sorted_stable
      [("a".data, { id := "a".data, name := "A".data, order := 3 }),
       ("b".data, { id := "b".data, name := "B".data, order := 1 }),
       ("c".data, { id := "c".data, name := "C".data, order := 2 }),
       ("k1".data, { id := "k1".data, name := "K1".data, order := 20,
                     parentGroup := some "b".data }),
       ("k2".data, { id := "k2".data, name := "K2".data, order := 10,
                     parentGroup := some "b".data })] []).2.2.2.2
      { id := "a".data, name := "A".data, order := 3 } (by simp) rfl
    rw [hl]
    have : l = [] := by
      have := hl
      rw [show lookupAL (buildGroupHierarchy
        [("a".data, { id := "a".data, name := "A".data, order := 3 }),
         ("b".data, { id := "b".data, name := "B".data, order := 1 }),
         ("c".data, { id := "c".data, name := "C".data, order := 2 }),
         ("k1".data, { id := "k1".data, name := "K1".data, order := 20,
                       parentGroup := some "b".data }),
         ("k2".data, { id := "k2".data, name := "K2".data, order := 10,
                       parentGroup := some "b".data })] []).hierarchy "a".data
        = some [] from rfl] at this
      exact (Option.some_inj.mp this).symm
    rw [this]

/-- Claim C8 (confirmed): a group whose parentGroup is set (to a
non-empty string, the source's truthiness reading of "set") but does
not match the id of any group the builder treats as top-level appears
nowhere in the output: neither in topLevel nor in any children bucket;
the builder is total, so the call returns normally. -/
theorem c8_orphan_groups_dropped (fg : List (Str × FieldGroup))
    (dg : List FieldGroup) (g : FieldGroup) (p : Str)
    (hpg : g.parentGroup = some p) (hpne : p ≠ [])
    (horph : p ∉ ((fg.map Prod.snd ++ dg).filter
      (fun x => !strTruthy x.parentGroup)).map (fun x => x.id)) :
    g ∉ (buildGroupHierarchy fg dg).topLevel ∧
    ∀ k l, lookupAL (buildGroupHierarchy fg dg).hierarchy k = some l → g ∉ l := by
  constructor
  · intro hmem
    rw [buildGroupHierarchy_topLevel] at hmem
    have hg := (List.mem_filter.mp (mem_sortByOrder.mp hmem)).2
    rw [hpg] at hg
    simp only [strTruthy, Bool.not_not] at hg
    exact hpne (List.isEmpty_iff.mp hg)
  · intro k l hl hmem
    rw [buildGroupHierarchy_lookup] at hl
    split at hl
    · next hk =>
      cases hl
      have hg := (List.mem_filter.mp (mem_sortByOrder.mp hmem)).2
      simp only [childP, hpg, Bool.and_eq_true, decide_eq_true_eq] at hg
      have hpk : p = k := hg.2
      subst hpk
      exact horph hk
    · exact Option.noConfusion hl

/-- Witness for claim C8: an orphan child whose parentGroup names the
nonexistent id "missing" is absent from the top level and from the only
bucket. -/
theorem c8_orphan_groups_dropped_witness :
    ({ id := "orph".data, name := "Orphan".data, order := 5,
       parentGroup := some "missing".data } : FieldGroup) ∉
      (buildGroupHierarchy
        [("policy".data, { id := "policy".data, name := "Policy".data, order := 1 })]
        [{ id := "orph".data, name := "Orphan".data, order := 5,
           parentGroup := some "missing".data }]).topLevel ∧
    ({ id := "orph".data, name := "Orphan".data, order := 5,
       parentGroup := some "missing".data } : FieldGroup) ∉ ([] : List FieldGroup) := by
  constructor
  · exact (c8_orphan_groups_dropped _ _ _ "missing".data rfl (by decide) (by decide)).1
  · exact (c8_orphan_groups_dropped
      [("policy".data, { id := "policy".data, name := "Policy".data, order := 1 })]
      [{ id := "orph".data, name := "Orphan".data, order := 5,
         parentGroup := some "missing".data }]
      { id := "orph".data, name := "Orphan".data, order := 5,
        parentGroup := some "missing".data }
      "missing".data rfl (by decide) (by decide)).2 "policy".data [] (by rfl)

end InsuranceData
